import Mathlib

/-!
Shallow embedding of the synchronization / mutation core of the
Text-Expander-Management frontend (src/App.tsx, src/types.ts).

JavaScript-level conventions used throughout:
- optional / possibly-undefined fields are `Option _`;
- string truthiness (`!s`, `s && _`, `a || b`) is modelled by `jsFalsyStr`,
  `jsTruthyStr` and `jsOrStr` (the empty string is falsy);
- `!!x` boolean coercion of an optional boolean is `Option.getD _ false`;
- thrown `Error` values are identified by their message string, exactly as the
  code itself does (`err.message === "CANCELLED"` and so on), so fallible
  operations return `Except String _`.
-/

namespace TEM

/-- JS truthiness of a possibly-undefined string: `undefined` and `""` are falsy. -/
def jsFalsyStr (o : Option String) : Bool :=
  match o with
  | none => true
  | some s => s = ""

/-- JS truthiness (`o` is neither undefined nor the empty string). -/
def jsTruthyStr (o : Option String) : Bool :=
  !(jsFalsyStr o)

/-- JS `a || b` for a possibly-undefined string `a` and a string default `b`. -/
def jsOrStr (a : Option String) (b : String) : String :=
  match a with
  | none => b
  | some s => if s = "" then b else s

/-- JS `String.prototype.includes` on character lists: `pat` occurs contiguously. -/
def listIncludes (pat : List Char) : List Char → Bool
  | [] => pat.isEmpty
  | c :: t => pat.isPrefixOf (c :: t) || listIncludes pat t

/-- JS `s.includes(pat)`. -/
def strIncludes (s pat : String) : Bool :=
  listIncludes pat.data s.data

/-- JS `s.toLowerCase()` (agreeing with it on ASCII, which covers every
string the code compares), stated over the character list so that concrete
instances evaluate. -/
def strToLower (s : String) : String :=
  String.mk (s.data.map Char.toLower)

/-- `LanguageCategory` from src/types.ts. -/
inductive LanguageCategory
  | all
  | spanish
  | english
deriving DecidableEq, Repr

/-- `ShortcutData` from src/types.ts.  `k` and `e` are required strings; every
other field is optional.  `s` is required in the TypeScript type, but the code
builds records through `{ ...item } as ShortcutData` casts that can leave it
undefined, so it is `Option` here. -/
structure ShortcutData where
  k : String
  e : String
  s : Option LanguageCategory
  style : Option String
  d : Option String
  favorite : Option Bool
  tags : Option String
  application : Option String
  mainCategory : Option String
  subcategory : Option String
  platform : Option String
  usageFrequency : Option String
  updatedAt : Option String
deriving DecidableEq, Repr

/-- A `Partial<ShortcutData>` value (every field possibly undefined), as passed
to `handleSave` from the edit modal. -/
structure ShortcutDraft where
  k : Option String
  e : Option String
  s : Option LanguageCategory
  style : Option String
  d : Option String
  favorite : Option Bool
  tags : Option String
  application : Option String
  mainCategory : Option String
  subcategory : Option String
  platform : Option String
  usageFrequency : Option String
  updatedAt : Option String
deriving DecidableEq, Repr

/-- A raw remote record as delivered by the backend, before `normalizeShortcuts`. -/
structure RawItem where
  key : Option String
  expansion : Option String
  language : Option String
  style : Option String
  fontStyle : Option String
  description : Option String
  tags : Option String
  application : Option String
  favorite : Option Bool
  mainCategory : Option String
  subcategory : Option String
  platform : Option String
  usageFrequency : Option String
  updatedAt : Option String
deriving DecidableEq, Repr

/-- The `LIMITS` configuration object (src/App.tsx lines 7-14). -/
structure LimitsCfg where
  MAX_KEY_LEN : Nat
  MAX_FIELD_LEN : Nat
  MAX_TAGS_LEN : Nat
  MAX_LANGUAGE_LEN : Nat
  MAX_APP_LEN : Nat
  MAX_DESC_LEN : Nat
deriving DecidableEq, Repr

/-- `LIMITS` constant values. -/
def LIMITS : LimitsCfg :=
  { MAX_KEY_LEN := 80
    MAX_FIELD_LEN := 50000
    MAX_TAGS_LEN := 512
    MAX_LANGUAGE_LEN := 64
    MAX_APP_LEN := 128
    MAX_DESC_LEN := 2000 }

/-- Decidable equality for `Except`, needed to `decide` concrete trace facts. -/
instance {ε α : Type} [DecidableEq ε] [DecidableEq α] : DecidableEq (Except ε α) := fun x y =>
  match x, y with
  | Except.ok a, Except.ok b =>
    if h : a = b then Decidable.isTrue (by simp [h]) else Decidable.isFalse (by simp [h])
  | Except.ok _, Except.error _ => Decidable.isFalse (by simp)
  | Except.error _, Except.ok _ => Decidable.isFalse (by simp)
  | Except.error e, Except.error f =>
    if h : e = f then Decidable.isTrue (by simp [h]) else Decidable.isFalse (by simp [h])

/-- Trace of one `withRetry` run: the final result, how many times the wrapped
operation was invoked, and the list of back-off delays actually slept (in
order). -/
structure RetryTrace (α : Type) where
  result : Except String α
  calls : Nat
  delays : List Nat
deriving DecidableEq, Repr

/-- `withRetry` (src/App.tsx lines 49-58).  The wrapped async operation is
modelled as a function from the invocation index (0-based, in call order) to
its outcome, which makes the sequential invocation order explicit.  On failure,
if `retries = 0` or the error message is `"GAS_UNAVAILABLE"` or `"CANCELLED"`,
the error is rethrown immediately; otherwise the code sleeps `delay`
milliseconds and recurses with `retries - 1` and `delay * 2`. -/
def withRetry {α : Type} (fn : Nat → Except String α) (retries delay callIdx : Nat) :
    RetryTrace α :=
  match fn callIdx with
  | Except.ok v => ⟨Except.ok v, 1, []⟩
  | Except.error msg =>
    match retries with
    | 0 => ⟨Except.error msg, 1, []⟩
    | r + 1 =>
      if msg = "GAS_UNAVAILABLE" || msg = "CANCELLED" then
        ⟨Except.error msg, 1, []⟩
      else
        let rest := withRetry fn r (delay * 2) (callIdx + 1)
        ⟨rest.result, rest.calls + 1, delay :: rest.delays⟩

/-- `!!item.favorite` boolean coercion of a possibly-undefined boolean. -/
def jsBool (o : Option Bool) : Bool :=
  o.getD false

/-- `normalizeShortcuts` applied to a single raw item (src/App.tsx lines
610-628): `k := item.key || ''`, `e := item.expansion || ''`, language from a
case-insensitive substring test on `item.language` (checked for truthiness
first), `style := item.style || item.fontStyle || ''`,
`d := item.description || ''`, `favorite := !!item.favorite`, and the
remaining backend fields copied as-is. -/
def normalizeOne (item : RawItem) : ShortcutData :=
  { k := jsOrStr item.key ""
    e := jsOrStr item.expansion ""
    s :=
      if jsTruthyStr item.language &&
          strIncludes (strToLower (item.language.getD "")) "span" then
        some LanguageCategory.spanish
      else if jsTruthyStr item.language &&
          strIncludes (strToLower (item.language.getD "")) "eng" then
        some LanguageCategory.english
      else some LanguageCategory.all
    style := some (jsOrStr item.style (jsOrStr item.fontStyle ""))
    d := some (jsOrStr item.description "")
    tags := item.tags
    application := item.application
    favorite := some (jsBool item.favorite)
    mainCategory := item.mainCategory
    subcategory := item.subcategory
    platform := item.platform
    usageFrequency := item.usageFrequency
    updatedAt := item.updatedAt }

/-- `normalizeShortcuts` (src/App.tsx lines 610-628): `raw.map(item => ...)`. -/
def normalizeShortcuts (raw : List RawItem) : List ShortcutData :=
  raw.map normalizeOne

/-- `getFriendlyError` (src/App.tsx lines 60-67), keyed on the error message. -/
def getFriendlyError (msg : String) : String × String :=
  if strIncludes msg "TIMEOUT" then
    ("Connection Timeout", "The server took too long to respond. Your network might be slow.")
  else if strIncludes msg "NetworkError" || strIncludes msg "we were unable to connect" then
    ("Network Failure", "Unable to connect to Google. Please check your internet connection.")
  else if msg = "GAS_UNAVAILABLE" then
    ("Environment Error", "Not running inside Google Apps Script.")
  else if msg = "CANCELLED" then
    ("Cancelled", "Operation cancelled by user.")
  else ("Sync Error", msg)

/-- `snapshotState.current` (src/App.tsx line 456): resumable sync cursor. -/
structure SnapshotSt where
  token : Option String
  offset : Nat
  total : Nat
deriving DecidableEq, Repr

/-- Response shape of `fetchShortcutsBatch` (as read by `fetchNextBatch`). -/
structure BatchResp where
  ok : Bool
  message : Option String
  shortcuts : List RawItem
  offset : Nat
  hasMore : Bool
deriving DecidableEq, Repr

/-- Trace of one `fetchNextBatch` run: the `fetchShortcutsBatch` calls issued
(argument triples `(token, offset, limit)`, in order), the resulting local
store, the resulting cursor, and the outcome (`ok` means `finishLoading` was
reached; an error message means the error propagated to the caller's catch). -/
structure FetchTrace where
  calls : List (String × Nat × Nat)
  data : List ShortcutData
  snap : SnapshotSt
  outcome : Except String Unit
deriving DecidableEq, Repr

/-- `fetchNextBatch` (src/App.tsx lines 539-570).  `aborted` is the state of
`syncAbortController.current.signal.aborted` during the run; `env i` is the
settled outcome of the `withRetry(() => runGas('fetchShortcutsBatch', [token,
offset, 500]))` composite for the i-th loop iteration of this run.  The JS
recursion has no bound, so `fuel` bounds the modelled recursion depth; the
artificial `"OUT_OF_FUEL"` outcome marks a run deeper than `fuel` and is never
relied on by a theorem.  Each iteration: checks the abort flag before issuing
the network call; issues the call at the current offset with limit 500; throws
on a non-ok payload; re-checks the abort flag; unconditionally advances the
cursor to `(token, response.offset, total)`; appends the normalized batch to
the store; then recurses while `hasMore`. -/
def fetchNextBatch (aborted : Bool) (env : Nat → Except String BatchResp)
    (fuel callIdx : Nat) (store : List ShortcutData) (snap : SnapshotSt)
    (token : String) (offset total : Nat) : FetchTrace :=
  if aborted then
    ⟨[], store, snap, Except.error "CANCELLED"⟩
  else
    match env callIdx with
    | Except.error msg => ⟨[(token, offset, 500)], store, snap, Except.error msg⟩
    | Except.ok resp =>
      if !resp.ok then
        ⟨[(token, offset, 500)], store, snap, Except.error (resp.message.getD "")⟩
      else if aborted then
        ⟨[(token, offset, 500)], store, snap, Except.error "CANCELLED"⟩
      else
        let snap' : SnapshotSt := ⟨some token, resp.offset, total⟩
        let store' := store ++ normalizeShortcuts resp.shortcuts
        if resp.hasMore then
          match fuel with
          | 0 => ⟨[(token, offset, 500)], store', snap', Except.error "OUT_OF_FUEL"⟩
          | f + 1 =>
            let rest := fetchNextBatch aborted env f (callIdx + 1) store' snap' token resp.offset total
            ⟨(token, offset, 500) :: rest.calls, rest.data, rest.snap, rest.outcome⟩
        else ⟨[(token, offset, 500)], store', snap', Except.ok ()⟩

/-- Response shape of `getAppBootstrapData` / `upsertShortcut` /
`deleteShortcut` (an `ok` flag plus an optional message). -/
structure RemoteResp where
  ok : Bool
  message : Option String
deriving DecidableEq, Repr

/-- Response shape of `beginShortcutsSnapshotHandler`. -/
structure SnapResp where
  ok : Bool
  message : Option String
  snapshotToken : String
  total : Nat
  shortcuts : List RawItem
  offset : Nat
  hasMore : Bool
deriving DecidableEq, Repr

/-- Trace of one `startGasSync` run: the names of the remote operations issued
in order, the resulting local store and cursor, and the outcome. -/
structure SyncRun where
  opNames : List String
  data : List ShortcutData
  snap : SnapshotSt
  outcome : Except String Unit
deriving DecidableEq, Repr

/-- `startGasSync` (src/App.tsx lines 499-537).  `bootRes` / `snapRes` are the
settled outcomes of the retried bootstrap and open-snapshot calls, `batchEnv`
feeds `fetchNextBatch`.  The run first resets the cursor to
`{token := none, offset := 0, total := 0}` and installs a fresh (non-aborted)
abort controller; a non-ok payload is thrown as an error even when the call
itself succeeded. -/
def startGasSync (bootRes : Except String RemoteResp) (snapRes : Except String SnapResp)
    (batchEnv : Nat → Except String BatchResp) (fuel : Nat) : SyncRun :=
  let snap0 : SnapshotSt := ⟨none, 0, 0⟩
  match bootRes with
  | Except.error msg => ⟨["getAppBootstrapData"], [], snap0, Except.error msg⟩
  | Except.ok b =>
    if !b.ok then
      ⟨["getAppBootstrapData"], [], snap0, Except.error (jsOrStr b.message "Bootstrap failed")⟩
    else
      match snapRes with
      | Except.error msg =>
        ⟨["getAppBootstrapData", "beginShortcutsSnapshotHandler"], [], snap0, Except.error msg⟩
      | Except.ok snp =>
        if !snp.ok then
          ⟨["getAppBootstrapData", "beginShortcutsSnapshotHandler"], [], snap0,
            Except.error (jsOrStr snp.message "Snapshot failed")⟩
        else
          let snap1 : SnapshotSt := ⟨some snp.snapshotToken, snp.offset, snp.total⟩
          let normalized := normalizeShortcuts snp.shortcuts
          if snp.hasMore then
            let t := fetchNextBatch false batchEnv fuel 0 normalized snap1
              snp.snapshotToken snp.offset snp.total
            ⟨"getAppBootstrapData" :: "beginShortcutsSnapshotHandler" ::
              t.calls.map (fun _ => "fetchShortcutsBatch"), t.data, t.snap, t.outcome⟩
          else
            ⟨["getAppBootstrapData", "beginShortcutsSnapshotHandler"], normalized, snap1,
              Except.ok ()⟩

/-- The user-visible part of the sync session touched by cancellation and
error handling: the loading flag and the classified sync error. -/
structure SessionView where
  loading : Bool
  syncError : Option (String × String)
deriving DecidableEq, Repr

/-- `handleSyncError` (src/App.tsx lines 572-581): a `"CANCELLED"` failure
clears the loading flag (and shows an informational toast) without recording
an error; any other failure stores the classified error and keeps the loading
flag as it was. -/
def handleSyncError (st : SessionView) (msg : String) : SessionView :=
  if msg = "CANCELLED" then { st with loading := false }
  else { st with syncError := some (getFriendlyError msg) }

/-- `cancelSync` (src/App.tsx lines 602-608): aborts the controller (returned
as the `true` flag), clears the loading flag and clears the sync error. -/
def cancelSync (_st : SessionView) : SessionView × Bool :=
  ({ loading := false, syncError := none }, true)

/-- JS object spread for one field: `{ ...old, ...item }` takes the field from
`item` when `item` carries it, otherwise keeps `old`'s field. -/
def jsSpread {α : Type} (new old : Option α) : Option α :=
  match new with
  | some v => some v
  | none => old

/-- `{ ...prev[idx], ...item }` in `handleSave`'s optimistic update: a
field-wise merge of the existing record with the draft, draft fields winning
when present.  `k`/`e` are required strings on the existing record, so the
draft value is taken only when present. -/
def mergeShortcut (old : ShortcutData) (item : ShortcutDraft) : ShortcutData :=
  { k := item.k.getD old.k
    e := item.e.getD old.e
    s := jsSpread item.s old.s
    style := jsSpread item.style old.style
    d := jsSpread item.d old.d
    favorite := jsSpread item.favorite old.favorite
    tags := jsSpread item.tags old.tags
    application := jsSpread item.application old.application
    mainCategory := jsSpread item.mainCategory old.mainCategory
    subcategory := jsSpread item.subcategory old.subcategory
    platform := jsSpread item.platform old.platform
    usageFrequency := jsSpread item.usageFrequency old.usageFrequency
    updatedAt := jsSpread item.updatedAt old.updatedAt }

/-- `{ ...item } as ShortcutData` in `handleSave`'s prepend branch: the draft
cast to a full record.  `handleSave` only reaches this cast after checking that
`item.k` and `item.e` are truthy, so defaulting the required strings to `""`
never fires on a reachable input. -/
def castDraft (item : ShortcutDraft) : ShortcutData :=
  { k := item.k.getD ""
    e := item.e.getD ""
    s := item.s
    style := item.style
    d := item.d
    favorite := item.favorite
    tags := item.tags
    application := item.application
    mainCategory := item.mainCategory
    subcategory := item.subcategory
    platform := item.platform
    usageFrequency := item.usageFrequency
    updatedAt := item.updatedAt }

/-- The optimistic `setData` update of `handleSave` (src/App.tsx lines
731-739): `findIndex(i => i.k === item.k)`, replace in place with the spread
merge when found, else prepend the cast draft.  The `i.k === item.k`
comparison is between a string and a possibly-undefined string, hence
`item.k = some r.k`.  The `none` fallback of the inner lookup is unreachable:
`findIdx?` only returns in-range indices. -/
def upsertOptimistic (prev : List ShortcutData) (item : ShortcutDraft) : List ShortcutData :=
  match prev.findIdx? (fun r => item.k = some r.k) with
  | some idx =>
    match prev[idx]? with
    | some old => prev.set idx (mergeShortcut old item)
    | none => prev
  | none => castDraft item :: prev

/-- Observable outcome of one `handleSave` / `handleDelete` run: whether the
remote mutation call was issued, the optimistic store shown while the call was
in flight, and the final store once the call settled. -/
structure MutationOutcome where
  callMade : Bool
  optimistic : List ShortcutData
  final : List ShortcutData
deriving DecidableEq, Repr

/-- `handleSave` (src/App.tsx lines 707-756), in the GAS environment.
`remote` is the settled outcome of `withRetry(() => runGas('upsertShortcut',
[payload]))`.  The guard `if (!item.k || !item.e)` aborts with a toast and no
store change; otherwise `previousData = [...data]` is captured, the optimistic
update is applied, and on a thrown error or an ok-false payload the store is
rolled back to `previousData`. -/
def handleSave (data : List ShortcutData) (item : ShortcutDraft)
    (remote : Except String RemoteResp) : MutationOutcome :=
  if jsFalsyStr item.k || jsFalsyStr item.e then
    ⟨false, data, data⟩
  else
    let previousData := data
    let optimistic := upsertOptimistic data item
    match remote with
    | Except.ok res =>
      if res.ok then ⟨true, optimistic, optimistic⟩
      else ⟨true, optimistic, previousData⟩
    | Except.error _ => ⟨true, optimistic, previousData⟩

/-- `handleDelete` (src/App.tsx lines 758-778), in the GAS environment.
Requires the `confirm(...)` step; optimistically removes every record whose
key equals `key` (`prev.filter(i => i.k !== key)`), then rolls back to the
captured `previousData` on a thrown error or an ok-false payload. -/
def handleDelete (data : List ShortcutData) (key : String) (confirmed : Bool)
    (remote : Except String RemoteResp) : MutationOutcome :=
  if !confirmed then
    ⟨false, data, data⟩
  else
    let previousData := data
    let optimistic := data.filter (fun i => i.k != key)
    match remote with
    | Except.ok res =>
      if res.ok then ⟨true, optimistic, optimistic⟩
      else ⟨true, optimistic, previousData⟩
    | Except.error _ => ⟨true, optimistic, previousData⟩

/-- Whether a settled upsert/delete remote outcome counts as a rejection (a
thrown error, or a payload whose `ok` flag is false — the code turns the
latter into a throw via `if (!res.ok) throw new Error(res.message)`). -/
def remoteRejected (remote : Except String RemoteResp) : Bool :=
  match remote with
  | Except.error _ => true
  | Except.ok res => !res.ok

/-- The `newErrors` object computed by `EditModal.validate` (src/App.tsx lines
234-243). -/
structure ValidationErrors where
  k : Option String
  e : Option String
deriving DecidableEq, Repr

/-- `EditModal.validate` (src/App.tsx lines 234-243), four sequential `if`
statements over the form data: emptiness then length of the key against
`LIMITS.MAX_KEY_LEN`, emptiness then length of the body against
`LIMITS.MAX_FIELD_LEN`.  No other field is examined. -/
def validate (fd : ShortcutDraft) : ValidationErrors :=
  let e0 : ValidationErrors := ⟨none, none⟩
  let e1 := if jsFalsyStr fd.k then { e0 with k := some "Trigger is required" } else e0
  let e2 :=
    if jsTruthyStr fd.k && decide ((fd.k.getD "").length > LIMITS.MAX_KEY_LEN) then
      { e1 with k := some ("Max " ++ toString LIMITS.MAX_KEY_LEN ++ " chars") }
    else e1
  let e3 := if jsFalsyStr fd.e then { e2 with e := some "Content is required" } else e2
  let e4 :=
    if jsTruthyStr fd.e && decide ((fd.e.getD "").length > LIMITS.MAX_FIELD_LEN) then
      { e3 with e := some "Content too long" }
    else e3
  e4

/-- `Object.keys(newErrors).length === 0`: validation passes. -/
def validateOk (fd : ShortcutDraft) : Bool :=
  (validate fd).k.isNone && (validate fd).e.isNone

/-- `EditModal.handleSubmit` (src/App.tsx lines 245-249) composed with
`onSave = handleSave`: the save flow runs only if `validate()` passes;
otherwise nothing is issued and the store is untouched. -/
def handleSubmit (data : List ShortcutData) (fd : ShortcutDraft)
    (remote : Except String RemoteResp) : MutationOutcome :=
  if validateOk fd then handleSave data fd remote
  else ⟨false, data, data⟩

/-- Response shape of a maintenance action (as read by
`handleMaintenanceAction`): `ok`/`success` flags and the optional detail
fields probed for the toast text. -/
structure MaintResp where
  ok : Bool
  success : Bool
  removed : Option Nat
  cached : Option Nat
  folderUrl : Option String
  message : Option String
deriving DecidableEq, Repr

/-- Observable outcome of one `handleMaintenanceAction` run. -/
inductive MaintOutcome
  | resync
  | clearLoading
  | failToast
deriving DecidableEq, Repr

/-- The reload test of `handleMaintenanceAction` (src/App.tsx line 665):
`action.includes('cleanup') || action.includes('Cache') ||
action.includes('restore') || action.includes('Import')` — a case-sensitive
substring match on the raw action name. -/
def actionTriggersReload (action : String) : Bool :=
  strIncludes action "cleanup" || strIncludes action "Cache" ||
    strIncludes action "restore" || strIncludes action "Import"

/-- The success-toast detail text of `handleMaintenanceAction` (src/App.tsx
lines 656-660): first present of removed-count, cached-count, folder-created
indicator, or the message field. -/
def maintDetail (res : MaintResp) : String :=
  if res.removed.isSome then "Removed " ++ toString (res.removed.getD 0) ++ " items"
  else if res.cached.isSome then "Cached " ++ toString (res.cached.getD 0) ++ " items"
  else if jsTruthyStr res.folderUrl then "Folder created successfully"
  else if jsTruthyStr res.message then res.message.getD ""
  else ""

/-- `handleMaintenanceAction` (src/App.tsx lines 644-677), in the GAS
environment.  `remote` is the settled outcome of the retried call; a null-ish
payload (`Except.ok none`) fails the `res && (res.ok || res.success)` guard
and is thrown, landing in the catch.  On success the action name decides
between a full resync (`handleRetrySync()`) and simply clearing the loading
flag. -/
def handleMaintenanceAction (action : String)
    (remote : Except String (Option MaintResp)) : MaintOutcome :=
  match remote with
  | Except.error _ => MaintOutcome.failToast
  | Except.ok none => MaintOutcome.failToast
  | Except.ok (some res) =>
    if res.ok || res.success then
      if actionTriggersReload action then MaintOutcome.resync
      else MaintOutcome.clearLoading
    else MaintOutcome.failToast

/-!
## Theorems

One theorem per claim (with counterexamples / witnesses where required),
preceded by the helper lemmas they share.
-/

/-- Helper for C1: a `withRetry` run whose operation fails `N` times with
retryable messages starting at call index `k` and then succeeds returns the
success value after `N + 1` invocations and delays `delay, 2*delay, ...`,
provided at least `N` retries remain. -/
theorem withRetry_transient_aux {α : Type} (fn : Nat → Except String α) (v : α)
    (msgs : Nat → String) :
    ∀ (N retries delay k : Nat), N ≤ retries →
      (∀ i, i < N → fn (k + i) = Except.error (msgs (k + i))) →
      (∀ i, i < N → msgs (k + i) ≠ "GAS_UNAVAILABLE" ∧ msgs (k + i) ≠ "CANCELLED") →
      fn (k + N) = Except.ok v →
      withRetry fn retries delay k =
        ⟨Except.ok v, N + 1, (List.range N).map (fun i => delay * 2 ^ i)⟩ := by
  intro N
  induction N with
  | zero =>
    intro retries delay k _ _ _ hsucc
    rw [withRetry]
    rw [show fn k = Except.ok v by simpa using hsucc]
    rfl
  | succ n ih =>
    intro retries delay k hN hfail hretry hsucc
    have hk : fn k = Except.error (msgs k) := by simpa using hfail 0 (Nat.succ_pos n)
    obtain ⟨r, rfl⟩ : ∃ r, retries = r + 1 := ⟨retries - 1, by omega⟩
    rw [withRetry, hk]
    have hmsg := hretry 0 (Nat.succ_pos n)
    simp only [Nat.add_zero] at hmsg
    have hcond : (msgs k = "GAS_UNAVAILABLE" || msgs k = "CANCELLED") = false := by
      simp [hmsg.1, hmsg.2]
    simp only [hcond, Bool.false_eq_true, if_false]
    have hrest := ih r (delay * 2) (k + 1) (by omega)
      (fun i hi => by
        have := hfail (i + 1) (by omega)
        rwa [show k + (i + 1) = k + 1 + i by omega] at this)
      (fun i hi => by
        have := hretry (i + 1) (by omega)
        rwa [show k + (i + 1) = k + 1 + i by omega] at this)
      (by
        have := hsucc
        rwa [show k + (n + 1) = k + 1 + n by omega] at this)
    rw [hrest]
    have hdel : (List.range (n + 1)).map (fun i => delay * 2 ^ i) =
        delay :: (List.range n).map (fun i => delay * 2 * 2 ^ i) := by
      rw [List.range_succ_eq_map, List.map_cons, List.map_map]
      refine congrArg₂ _ (by simp) ?_
      congr 1
      funext i
      simp [Function.comp, pow_succ]
      ring
    rw [hdel]

/-- C1 (amended): for every operation that fails `N` times with retryable
errors (none of them `GAS_UNAVAILABLE` or `CANCELLED`) and then succeeds,
`withRetry` with at least `N` retries remaining and initial delay `delay`
returns the success value, invokes the operation exactly `N + 1` times
sequentially, and performs exactly `N` delayed retries whose delays are
`delay, 2*delay, 4*delay, ...` — doubling each time, no cap, no jitter. -/
theorem withRetry_succeeds_after_transient_failures {α : Type}
    (fn : Nat → Except String α) (v : α) (msgs : Nat → String) (N retries delay : Nat)
    (hN : N ≤ retries)
    (hfail : ∀ i, i < N → fn i = Except.error (msgs i))
    (hretry : ∀ i, i < N → msgs i ≠ "GAS_UNAVAILABLE" ∧ msgs i ≠ "CANCELLED")
    (hsucc : fn N = Except.ok v) :
    withRetry fn retries delay 0 =
      ⟨Except.ok v, N + 1, (List.range N).map (fun i => delay * 2 ^ i)⟩ :=
  withRetry_transient_aux fn v msgs N retries delay 0 hN
    (fun i hi => by simpa using hfail i hi)
    (fun i hi => by simpa using hretry i hi)
    (by simpa using hsucc)

/-- Witness for C1's amended theorem: an operation failing twice with
`"TIMEOUT"` and then returning 7, under 3 retries and initial delay 100,
yields 7 after 3 invocations with delays `[100, 200]`. -/
theorem withRetry_succeeds_after_transient_failures_witness :
    withRetry (fun i => if i < 2 then Except.error "TIMEOUT" else Except.ok 7) 3 100 0 =
      ⟨Except.ok 7, 2 + 1, (List.range 2).map (fun i => 100 * 2 ^ i)⟩ :=
  withRetry_succeeds_after_transient_failures
    (fun i => if i < 2 then Except.error "TIMEOUT" else Except.ok 7) 7
    (fun _ => "TIMEOUT") 2 3 100 (by omega)
    (fun i hi => by simp [hi])
    (fun _ _ => ⟨show "TIMEOUT" ≠ "GAS_UNAVAILABLE" by decide,
                 show "TIMEOUT" ≠ "CANCELLED" by decide⟩)
    rfl

/-- An operation that fails exactly once — with `"CANCELLED"` — and succeeds
from its second invocation on. -/
def cancelOnceFn : Nat → Except String Nat :=
  fun i => if i = 0 then Except.error "CANCELLED" else Except.ok 42

/-- C1 counterexample: `cancelOnceFn` fails once then succeeds, and
`maxAttempts = 3 ≥ 1`, yet `withRetry` returns the error after a single
invocation with no delayed retries — the claim's universal quantification
over "every operation that fails N times and then succeeds" fails on
non-retryable failures. -/
theorem withRetry_c1_counterexample :
    cancelOnceFn 0 = Except.error "CANCELLED" ∧
    cancelOnceFn 1 = Except.ok 42 ∧
    withRetry cancelOnceFn 3 1000 0 = ⟨Except.error "CANCELLED", 1, []⟩ :=
  ⟨rfl, rfl, by decide⟩

/-- C4: for every remaining-retries budget and every operation whose next
invocation fails with `"GAS_UNAVAILABLE"` or `"CANCELLED"`, `withRetry`
re-fails immediately with that error: exactly one invocation, no delays. -/
theorem withRetry_nonretryable {α : Type} (fn : Nat → Except String α)
    (retries delay callIdx : Nat) (msg : String)
    (hmsg : msg = "GAS_UNAVAILABLE" ∨ msg = "CANCELLED")
    (hfn : fn callIdx = Except.error msg) :
    withRetry fn retries delay callIdx = ⟨Except.error msg, 1, []⟩ := by
  rw [withRetry, hfn]
  cases retries with
  | zero => rfl
  | succ r =>
    have : (msg = "GAS_UNAVAILABLE" || msg = "CANCELLED") = true := by
      rcases hmsg with h | h <;> simp [h]
    simp [this]

/-- Witness for C4: both non-retryable messages, at different budgets. -/
theorem withRetry_nonretryable_witness :
    withRetry (fun _ => Except.error "GAS_UNAVAILABLE" : Nat → Except String Nat) 5 1000 0 =
      ⟨Except.error "GAS_UNAVAILABLE", 1, []⟩ ∧
    withRetry (fun _ => Except.error "CANCELLED" : Nat → Except String Nat) 2 7 0 =
      ⟨Except.error "CANCELLED", 1, []⟩ :=
  ⟨withRetry_nonretryable _ 5 1000 0 _ (Or.inl rfl) rfl,
   withRetry_nonretryable _ 2 7 0 _ (Or.inr rfl) rfl⟩

/-- C5: once the cancel action has aborted the session, the next
`fetchNextBatch` iteration issues no network call at all and fails with
`"CANCELLED"`, leaving store and cursor untouched; `cancelSync` itself clears
the loading flag and the error, and the in-flight `"CANCELLED"` failure
arriving at `handleSyncError` keeps the loading flag cleared and records no
error. -/
theorem cancel_prevents_network_and_clears_state
    (st : SessionView) (env : Nat → Except String BatchResp)
    (fuel callIdx : Nat) (store : List ShortcutData) (snap : SnapshotSt)
    (token : String) (offset total : Nat) :
    (fetchNextBatch true env fuel callIdx store snap token offset total).calls = [] ∧
    (fetchNextBatch true env fuel callIdx store snap token offset total).outcome =
      Except.error "CANCELLED" ∧
    (fetchNextBatch true env fuel callIdx store snap token offset total).data = store ∧
    (fetchNextBatch true env fuel callIdx store snap token offset total).snap = snap ∧
    (cancelSync st).2 = true ∧
    (cancelSync st).1.loading = false ∧
    (cancelSync st).1.syncError = none ∧
    handleSyncError (cancelSync st).1 "CANCELLED" = ⟨false, none⟩ := by
  refine ⟨?_, ?_, ?_, ?_, rfl, rfl, rfl, ?_⟩ <;>
    simp [fetchNextBatch, cancelSync, handleSyncError]

/-- C3: for every store and every upsert or delete whose remote call settles
as a rejection (thrown error, or an ok-false payload), the final store is
exactly the pre-mutation snapshot — the list captured before the optimistic
update, with its original order and contents, not a merged or patched
value. -/
theorem mutation_rollback_restores_prior_store
    (data : List ShortcutData) (item : ShortcutDraft) (key : String)
    (remote : Except String RemoteResp)
    (hrej : remoteRejected remote = true) :
    (handleSave data item remote).final = data ∧
    (handleDelete data key true remote).final = data := by
  constructor
  · rw [handleSave]
    by_cases hguard : (jsFalsyStr item.k || jsFalsyStr item.e) = true
    · simp only [hguard, if_true]
    · simp only [hguard, Bool.false_eq_true, if_false]
      cases remote with
      | error m => rfl
      | ok res =>
        have hok : res.ok = false := by simpa [remoteRejected] using hrej
        simp [hok]
  · rw [handleDelete]
    simp only [Bool.not_true, Bool.false_eq_true, if_false]
    cases remote with
    | error m => rfl
    | ok res =>
      have hok : res.ok = false := by simpa [remoteRejected] using hrej
      simp [hok]

/-- The record `{k := "a"}` of the spec's rollback example. -/
def recA : ShortcutData :=
  ⟨"a", "hello", some LanguageCategory.all, none, none, none, none, none, none, none,
    none, none, none⟩

/-- The record `{k := "b"}` of the spec's delete-rollback example. -/
def recB : ShortcutData :=
  ⟨"b", "bye", some LanguageCategory.all, none, none, none, none, none, none, none,
    none, none, none⟩

/-- The draft `{k := "a", e := "x"}` of the spec's rollback example. -/
def draftAX : ShortcutDraft :=
  ⟨some "a", some "x", some LanguageCategory.all, none, none, none, none, none, none,
    none, none, none, none⟩

/-- Witness for C3, at the spec's own examples: upserting `{k:"a", e:"x"}`
over `[{k:"a"}]` against an ok-false payload first optimistically shows the
merged record, then rolls back to exactly `[recA]`; deleting `"b"` from
`[recA, recB]` against a thrown `"TIMEOUT"` optimistically shows `[recA]` and
rolls back to `[recA, recB]` in order. -/
theorem mutation_rollback_restores_prior_store_witness :
    (handleSave [recA] draftAX (Except.ok ⟨false, none⟩)).optimistic =
      [mergeShortcut recA draftAX] ∧
    (handleSave [recA] draftAX (Except.ok ⟨false, none⟩)).final = [recA] ∧
    (handleDelete [recA, recB] "b" true (Except.error "TIMEOUT")).optimistic = [recA] ∧
    (handleDelete [recA, recB] "b" true (Except.error "TIMEOUT")).final = [recA, recB] :=
  ⟨by decide,
   (mutation_rollback_restores_prior_store [recA] draftAX "b" (Except.ok ⟨false, none⟩)
      rfl).1,
   by decide,
   (mutation_rollback_restores_prior_store [recA, recB] draftAX "b"
      (Except.error "TIMEOUT") rfl).2⟩

/-- C9 (implicit): the optimistic upsert update touches only the record at the
key's first existing position — length is preserved, every other position is
unchanged, and the replacement is the field-wise merge of the old record with
the draft, so fields absent from the draft retain their prior values; when the
key is absent, the cast draft is prepended and the whole previous list is the
tail, unchanged. -/
theorem upsertOptimistic_frame (prev : List ShortcutData) (item : ShortcutDraft) :
    (∀ idx, prev.findIdx? (fun r => item.k = some r.k) = some idx →
      ∃ old, prev[idx]? = some old ∧
        upsertOptimistic prev item = prev.set idx (mergeShortcut old item) ∧
        (upsertOptimistic prev item).length = prev.length ∧
        (upsertOptimistic prev item)[idx]? = some (mergeShortcut old item) ∧
        ∀ j, j ≠ idx → (upsertOptimistic prev item)[j]? = prev[j]?) ∧
    (prev.findIdx? (fun r => item.k = some r.k) = none →
      upsertOptimistic prev item = castDraft item :: prev) ∧
    (∀ old : ShortcutData,
      (item.k = none → (mergeShortcut old item).k = old.k) ∧
      (item.e = none → (mergeShortcut old item).e = old.e) ∧
      (item.s = none → (mergeShortcut old item).s = old.s) ∧
      (item.style = none → (mergeShortcut old item).style = old.style) ∧
      (item.d = none → (mergeShortcut old item).d = old.d) ∧
      (item.favorite = none → (mergeShortcut old item).favorite = old.favorite) ∧
      (item.tags = none → (mergeShortcut old item).tags = old.tags) ∧
      (item.application = none → (mergeShortcut old item).application = old.application) ∧
      (item.mainCategory = none →
        (mergeShortcut old item).mainCategory = old.mainCategory) ∧
      (item.subcategory = none → (mergeShortcut old item).subcategory = old.subcategory) ∧
      (item.platform = none → (mergeShortcut old item).platform = old.platform) ∧
      (item.usageFrequency = none →
        (mergeShortcut old item).usageFrequency = old.usageFrequency) ∧
      (item.updatedAt = none → (mergeShortcut old item).updatedAt = old.updatedAt)) := by
  refine ⟨?_, ?_, ?_⟩
  · intro idx hfind
    have hlt : idx < prev.length := (List.findIdx?_eq_some_iff_getElem.mp hfind).1
    obtain ⟨old, hold⟩ : ∃ old, prev[idx]? = some old :=
      ⟨prev[idx], List.getElem?_eq_getElem hlt⟩
    refine ⟨old, hold, ?_⟩
    have hdef : upsertOptimistic prev item = prev.set idx (mergeShortcut old item) := by
      rw [upsertOptimistic, hfind]
      simp only [hold]
    refine ⟨hdef, ?_, ?_, ?_⟩
    · rw [hdef, List.length_set]
    · rw [hdef]
      exact List.getElem?_set_self (by simpa using hlt)
    · intro j hj
      rw [hdef]
      exact List.getElem?_set_ne (Ne.symm hj)
  · intro hfind
    rw [upsertOptimistic, hfind]
  · intro old
    refine ⟨?_, ?_, ?_, ?_, ?_, ?_, ?_, ?_, ?_, ?_, ?_, ?_, ?_⟩ <;>
      (intro h; simp [mergeShortcut, jsSpread, h])

/-- A draft keyed `"b"` that carries a new body but no favorite flag. -/
def draftBX : ShortcutDraft :=
  ⟨some "b", some "y", none, none, none, none, none, none, none, none, none, none, none⟩

/-- Witness for C9: a two-record store where the draft's key matches the
second record; the update rewrites position 1 only, and a draft with an
absent `favorite` field keeps the old record's favorite flag. -/
theorem upsertOptimistic_frame_witness :
    [recA, recB].findIdx? (fun r => draftBX.k = some r.k) = some 1 ∧
    upsertOptimistic [recA, recB] draftBX = [recA, mergeShortcut recB draftBX] ∧
    (upsertOptimistic [recA, recB] draftBX)[0]? = some recA ∧
    (mergeShortcut recB draftBX).favorite = recB.favorite := by
  have h := (upsertOptimistic_frame [recA, recB] draftBX).1 1 (by decide)
  obtain ⟨old, hold, hdef, _hlen, _hset, hframe⟩ := h
  have holdval : old = recB := by
    have h2 : some old = some recB := by rw [← hold]; decide
    exact Option.some_injective _ h2
  subst holdval
  refine ⟨by decide, ?_, ?_, ?_⟩
  · rw [hdef]; decide
  · rw [hframe 0 (by decide)]; decide
  · exact ((upsertOptimistic_frame [recA, recB] draftBX).2.2 recB).2.2.2.2.2.1 rfl

/-- Helper for C6: closed form of the two error slots actually computed by
`validate` — both depend only on the key and body fields. -/
theorem validate_fields (fd : ShortcutDraft) :
    (validate fd).k = (if jsFalsyStr fd.k then some "Trigger is required"
      else if decide ((fd.k.getD "").length > LIMITS.MAX_KEY_LEN) then
        some ("Max " ++ toString LIMITS.MAX_KEY_LEN ++ " chars") else none) ∧
    (validate fd).e = (if jsFalsyStr fd.e then some "Content is required"
      else if decide ((fd.e.getD "").length > LIMITS.MAX_FIELD_LEN) then
        some "Content too long" else none) := by
  unfold validate
  refine ⟨?_, ?_⟩ <;>
  · simp only [jsTruthyStr]
    split_ifs <;> simp_all

/-- C6 (amended): an upsert input whose key or body is empty or exceeds its
length limit (key ≤ 80, body ≤ 50000) fails validation and the submit flow
issues no remote call, leaving the store untouched.  (The tags, description,
application and language limits exist in `LIMITS` but are not enforced by
`validate` — see the counterexample.) -/
theorem validation_failfast_key_body
    (data : List ShortcutData) (fd : ShortcutDraft) (remote : Except String RemoteResp)
    (hbad : jsFalsyStr fd.k = true ∨ (fd.k.getD "").length > LIMITS.MAX_KEY_LEN ∨
      jsFalsyStr fd.e = true ∨ (fd.e.getD "").length > LIMITS.MAX_FIELD_LEN) :
    validateOk fd = false ∧
    handleSubmit data fd remote = ⟨false, data, data⟩ := by
  have hkspec := (validate_fields fd).1
  have hespec := (validate_fields fd).2
  have hv : validateOk fd = false := by
    unfold validateOk
    rcases hbad with h | h | h | h
    · rw [hkspec]
      simp [h]
    · rw [hkspec]
      by_cases h1 : jsFalsyStr fd.k
      · simp [h1]
      · simp [h1, h]
    · rw [hespec]
      simp [h]
    · rw [hespec]
      by_cases h1 : jsFalsyStr fd.e
      · simp [h1]
      · simp [h1, h]
  refine ⟨hv, ?_⟩
  rw [handleSubmit]
  simp [hv]

/-- A draft with no key at all (body present). -/
def draftNoKey : ShortcutDraft :=
  ⟨none, some "b", none, none, none, none, none, none, none, none, none, none, none⟩

/-- Witness for C6's amended theorem: the key-less draft fails validation and
never reaches the network. -/
theorem validation_failfast_key_body_witness :
    validateOk draftNoKey = false ∧
    handleSubmit [] draftNoKey (Except.ok ⟨true, none⟩) = ⟨false, [], []⟩ :=
  validation_failfast_key_body [] draftNoKey (Except.ok ⟨true, none⟩) (Or.inl rfl)

/-- A 513-character tags string, one over `LIMITS.MAX_TAGS_LEN`. -/
def longTags : String :=
  String.mk (List.replicate 513 'x')

/-- A draft with a valid key and body but oversized tags. -/
def draftLongTags : ShortcutDraft :=
  ⟨some "a", some "b", some LanguageCategory.all, none, none, none, some longTags,
    none, none, none, none, none, none⟩

/-- C6 counterexample: a draft whose tags exceed `LIMITS.MAX_TAGS_LEN` (513 >
512) passes `validate` — which only examines key and body — and the submit
flow issues the remote call, so the claimed fail-fast on the tags limit does
not happen. -/
theorem validate_ignores_tags_limit_counterexample :
    (draftLongTags.tags.getD "").length = 513 ∧
    LIMITS.MAX_TAGS_LEN = 512 ∧
    validateOk draftLongTags = true ∧
    (handleSubmit [] draftLongTags (Except.ok ⟨true, none⟩)).callMade = true := by
  refine ⟨?_, by decide, by decide, by decide⟩
  show longTags.length = 513
  unfold longTags
  show (List.replicate 513 'x').length = 513
  rw [List.length_replicate]

/-- Modelled from the spec: membership of an action name in the
"data-mutating family (cleanup, cache-rebuild, restore, import)" of claim C7,
read as a case-insensitive occurrence of one of the four family keywords in
the action name. -/
def specDataMutatingFamily (action : String) : Bool :=
  strIncludes (strToLower action) "cleanup" || strIncludes (strToLower action) "rebuild" ||
    strIncludes (strToLower action) "restore" || strIncludes (strToLower action) "import"

/-- C7 counterexample: `showCacheStatistics` — a read-only statistics action,
outside the data-mutating family — nevertheless triggers a full resync on
success, because the code's test is a case-sensitive substring match on
`'Cache'` rather than a family match. -/
theorem maintenance_resync_family_counterexample :
    specDataMutatingFamily "showCacheStatistics" = false ∧
    handleMaintenanceAction "showCacheStatistics"
      (Except.ok (some ⟨true, false, none, none, none, none⟩)) = MaintOutcome.resync := by
  refine ⟨by decide, by decide⟩

/-- C7 (amended): for every maintenance action whose result carries a success
indicator (`ok` or `success`), a full resync is triggered exactly when the
action name contains one of the case-sensitive substrings `'cleanup'`,
`'Cache'`, `'restore'`, `'Import'`; for every other successful action the
loading state is simply cleared; a failed call, an ok-false payload or a
null-ish payload produce the failure toast and never a resync. -/
theorem handleMaintenanceAction_dispatch (action : String) (res : MaintResp) :
    ((res.ok || res.success) = true →
      handleMaintenanceAction action (Except.ok (some res)) =
        (if actionTriggersReload action then MaintOutcome.resync
          else MaintOutcome.clearLoading)) ∧
    ((res.ok || res.success) = false →
      handleMaintenanceAction action (Except.ok (some res)) = MaintOutcome.failToast) ∧
    (∀ msg, handleMaintenanceAction action (Except.error msg) = MaintOutcome.failToast) ∧
    handleMaintenanceAction action (Except.ok none) = MaintOutcome.failToast := by
  refine ⟨?_, ?_, fun msg => rfl, rfl⟩
  · intro h
    rw [handleMaintenanceAction]
    simp [h]
  · intro h
    rw [handleMaintenanceAction]
    simp [h]

/-- Witness for C7's amended theorem: a successful cleanup action resyncs, a
successful export action only clears the loading state. -/
theorem handleMaintenanceAction_dispatch_witness :
    handleMaintenanceAction "cleanupDuplicateShortcuts"
      (Except.ok (some ⟨true, false, some 3, none, none, none⟩)) = MaintOutcome.resync ∧
    handleMaintenanceAction "exportAllTEMData"
      (Except.ok (some ⟨true, false, none, none, none, some "done"⟩)) =
        MaintOutcome.clearLoading :=
  ⟨((handleMaintenanceAction_dispatch "cleanupDuplicateShortcuts"
      ⟨true, false, some 3, none, none, none⟩).1 rfl).trans (by decide),
   ((handleMaintenanceAction_dispatch "exportAllTEMData"
      ⟨true, false, none, none, none, some "done"⟩).1 rfl).trans (by decide)⟩

/-- Modelled from the spec: the language normalization described by claim C8
— spanish when the free-text language field case-insensitively contains
"span", english when it contains "eng" (first match wins), and the default
"all" otherwise or when the field is absent. -/
def specNormalizeLanguage (lang : Option String) : LanguageCategory :=
  match lang with
  | none => LanguageCategory.all
  | some l =>
    if strIncludes (strToLower l) "span" then LanguageCategory.spanish
    else if strIncludes (strToLower l) "eng" then LanguageCategory.english
    else LanguageCategory.all

/-- When its first operand is JS-falsy, `a || b` yields `b`. -/
theorem jsOrStr_falsy (a : Option String) (b : String) (h : jsFalsyStr a = true) :
    jsOrStr a b = b := by
  cases a with
  | none => rfl
  | some s =>
    have hs : s = "" := by simpa [jsFalsyStr] using h
    simp [jsOrStr, hs]

/-- A raw item whose style field is absent but whose fontStyle is present. -/
def rawFontStyleItem : RawItem :=
  ⟨some "k1", some "e1", none, none, some "cursive", none, none, none, none, none,
    none, none, none, none⟩

/-- C8 counterexample: the style field is not passed through — a raw item
with an absent style field and fontStyle `"cursive"` is normalized to style
`"cursive"` (the `item.style || item.fontStyle || ''` fallback), not to its
absent style field. -/
theorem normalizeOne_style_counterexample :
    rawFontStyleItem.style = none ∧
    (normalizeOne rawFontStyleItem).style = some "cursive" := by
  refine ⟨rfl, by decide⟩

/-- C8 (amended): normalization maps the key field to `k` and the expansion
field to `e` (empty-string defaults), normalizes the language exactly as the
spec-worded `specNormalizeLanguage`, passes the category / platform / usage /
timestamp fields through unchanged, and boolean-coerces the favorite flag;
the style field is NOT a pass-through: a present non-empty style wins,
otherwise a present non-empty fontStyle is used, otherwise the empty
string. -/
theorem normalizeOne_field_mapping (item : RawItem) :
    (normalizeOne item).k = item.key.getD "" ∧
    (normalizeOne item).e = item.expansion.getD "" ∧
    (normalizeOne item).s = some (specNormalizeLanguage item.language) ∧
    (∀ s, item.style = some s → s ≠ "" → (normalizeOne item).style = some s) ∧
    (jsFalsyStr item.style = true → ∀ t, item.fontStyle = some t → t ≠ "" →
      (normalizeOne item).style = some t) ∧
    (jsFalsyStr item.style = true → jsFalsyStr item.fontStyle = true →
      (normalizeOne item).style = some "") ∧
    (normalizeOne item).mainCategory = item.mainCategory ∧
    (normalizeOne item).subcategory = item.subcategory ∧
    (normalizeOne item).platform = item.platform ∧
    (normalizeOne item).usageFrequency = item.usageFrequency ∧
    (normalizeOne item).updatedAt = item.updatedAt ∧
    (normalizeOne item).tags = item.tags ∧
    (normalizeOne item).application = item.application ∧
    (normalizeOne item).favorite = some (item.favorite.getD false) := by
  refine ⟨?_, ?_, ?_, ?_, ?_, ?_, rfl, rfl, rfl, rfl, rfl, rfl, rfl, rfl⟩
  · show jsOrStr item.key "" = item.key.getD ""
    cases item.key with
    | none => rfl
    | some s => by_cases hs : s = "" <;> simp [jsOrStr, hs]
  · show jsOrStr item.expansion "" = item.expansion.getD ""
    cases item.expansion with
    | none => rfl
    | some s => by_cases hs : s = "" <;> simp [jsOrStr, hs]
  · rcases hlang : item.language with _ | l
    · simp [normalizeOne, specNormalizeLanguage, hlang, jsTruthyStr, jsFalsyStr]
    · by_cases hl : l = ""
      · subst hl
        simp [normalizeOne, specNormalizeLanguage, hlang, jsTruthyStr, jsFalsyStr,
          strToLower, strIncludes, listIncludes]
      · simp only [normalizeOne, specNormalizeLanguage, hlang, jsTruthyStr, jsFalsyStr,
          hl, decide_False, Bool.not_false, Bool.true_and, Option.getD_some]
        split <;> try rfl
        split <;> rfl
  · intro s hs hne
    simp [normalizeOne, hs, jsOrStr, hne]
  · intro hsty t ht htne
    show some (jsOrStr item.style (jsOrStr item.fontStyle "")) = some t
    rw [jsOrStr_falsy item.style _ hsty, ht]
    simp [jsOrStr, htne]
  · intro hsty hfsty
    show some (jsOrStr item.style (jsOrStr item.fontStyle "")) = some ""
    rw [jsOrStr_falsy item.style _ hsty, jsOrStr_falsy item.fontStyle _ hfsty]

/-- A raw item carrying a Spanish language marker and a style. -/
def rawSpanishItem : RawItem :=
  ⟨some "omw", some "on my way", some "Spanish (MX)", some "bold", none, none, none,
    none, some true, none, none, none, none, none⟩

/-- Witness for C8's amended theorem: at a raw item whose language field
contains "Span" and whose style is present and non-empty, and at a raw item
with an absent style and a fontStyle, where the fallback fires. -/
theorem normalizeOne_field_mapping_witness :
    (normalizeOne rawSpanishItem).s = some (specNormalizeLanguage (some "Spanish (MX)")) ∧
    (normalizeOne rawSpanishItem).style = some "bold" ∧
    (normalizeOne rawFontStyleItem).style = some "cursive" ∧
    specNormalizeLanguage (some "Spanish (MX)") = LanguageCategory.spanish :=
  ⟨(normalizeOne_field_mapping rawSpanishItem).2.2.1,
   (normalizeOne_field_mapping rawSpanishItem).2.2.2.1 "bold" rfl (by decide),
   (normalizeOne_field_mapping rawFontStyleItem).2.2.2.2.1 rfl "cursive" rfl (by decide),
   by decide⟩

/-- A raw batch item with every field absent — in particular no key and no
expansion. -/
def emptyRawItem : RawItem :=
  ⟨none, none, none, none, none, none, none, none, none, none, none, none, none, none⟩

/-- A batch environment whose single batch delivers only `emptyRawItem`. -/
def emptyKeyBatchEnv : Nat → Except String BatchResp :=
  fun _ => Except.ok ⟨true, none, [emptyRawItem], 37, false⟩

/-- C10 (implicit): normalization is total — one output record per raw input,
however malformed — and an item with absent key and expansion fields becomes
a record with empty-string key and body; such records enter the local store
unfiltered, both through a batch fetch and through the bootstrap/snapshot
path. -/
theorem normalization_total_admits_empty_keys :
    (∀ raw : List RawItem, (normalizeShortcuts raw).length = raw.length) ∧
    (normalizeOne emptyRawItem).k = "" ∧
    (normalizeOne emptyRawItem).e = "" ∧
    (fetchNextBatch false emptyKeyBatchEnv 5 0 [] ⟨some "T", 0, 1⟩ "T" 0 1).outcome =
      Except.ok () ∧
    (fetchNextBatch false emptyKeyBatchEnv 5 0 [] ⟨some "T", 0, 1⟩ "T" 0 1).data =
      [normalizeOne emptyRawItem] ∧
    (startGasSync (Except.ok ⟨true, none⟩)
        (Except.ok ⟨true, none, "T", 1, [emptyRawItem], 1, false⟩)
        emptyKeyBatchEnv 5).data = [normalizeOne emptyRawItem] := by
  refine ⟨?_, by decide, by decide, by decide, by decide, by decide⟩
  intro raw
  exact List.length_map raw normalizeOne

end TEM
